import Mathlib

/-!
Verification of the customer-management CRUD application.

The repository contains two route variants:
* an ownership-scoped variant (`frontend/assets/js/app.js`, JWT-protected routes):
  every operation is scoped to the authenticated user's id;
* a Sequelize variant (`backend/routes/customers.js` with `backend/models/Customer.js`):
  no caller identity at all, lookups by primary key only.

Both are embedded below, together with the CSV and PDF export generators of
`backend/utils/csvExport.js`.
-/

namespace CrudApp

/-- The five user-supplied fields of a customer, as destructured from the
request body in both route variants.  An absent field is modelled as the
empty string (the routes test JS truthiness, which for strings is
non-emptiness). -/
structure CustomerFields where
  first_name : String
  last_name : String
  email : String
  phone : String
  address : String
deriving Repr, DecidableEq

/-- A customer row of the ownership-scoped variant: the five fields plus the
store-assigned id and creation timestamp, and the owning user's id
(`user_id: req.user.id` at creation). -/
structure OwnedCustomer where
  id : Nat
  first_name : String
  last_name : String
  email : String
  phone : String
  address : String
  user_id : Nat
  date_created : Nat
deriving Repr, DecidableEq

/-- The record store of the ownership-scoped variant: the rows plus the next
auto-increment id. -/
structure Store where
  records : List OwnedCustomer
  nextId : Nat
deriving Repr, DecidableEq

/-- Domain errors surfaced by the routes: validation failures (with the
response message of the route), the uniform not-found response
(`Customer not found` / `Customer not found or unauthorized`), the
duplicate-email conflict (`Customer email already exists` /
`Email already exists`), and the generic 500 persistence failure. -/
inductive CrudError where
  | ValidationError (msg : String)
  | NotFoundError
  | DuplicateEmailError
  | PersistenceError
deriving Repr, DecidableEq

/-! ### Field validation, from the route handlers in `app.js`

The create route checks, in order: all five fields truthy
(`if (!first_name || ...)`), the email regex
`^[^\s@]+@[^\s@]+\.[^\s@]+$`, and the phone regex `^[\d\s\-\+\(\)]+$`.
The update route checks only the first two. -/

/-- A character admissible inside the local part and domain of the email
regex: anything that is not whitespace and not the at sign. -/
def emailCharOk (c : Char) : Bool :=
  !c.isWhitespace && c != '@'

/-- Scans the part of the domain after its first character for a dot that is
not the last character: together with `emailValid` this realises the
`[^\s@]+\.[^\s@]+$` tail of the email regex (a dot with at least one
admissible character on each side). -/
def dotNotLast : List Char → Bool
  | [] => false
  | [_] => false
  | c :: rest => (c == '.') || dotNotLast rest

/-- Splitting a character stream at every occurrence of a separator
character (the semantics of `split` over a one-character separator). -/
def splitOnChar (sep : Char) : List Char → List (List Char)
  | [] => [[]]
  | c :: rest =>
    if c = sep then [] :: splitOnChar sep rest
    else
      match splitOnChar sep rest with
      | [] => [[c]]
      | l :: ls => (c :: l) :: ls

/-- The email test of the routes, `/^[^\s@]+@[^\s@]+\.[^\s@]+$/`: exactly one
at sign, a non-empty whitespace-free local part, and a non-empty
whitespace-free domain containing an interior dot. -/
def emailValid (s : String) : Bool :=
  match splitOnChar '@' s.data with
  | [l, d] =>
    !l.isEmpty && l.all emailCharOk &&
    !d.isEmpty && d.all emailCharOk &&
    (match d with
     | [] => false
     | _ :: rest => dotNotLast rest)
  | _ => false

/-- A character of the permitted phone class `[\d\s\-\+\(\)]`. -/
def phoneCharOk (c : Char) : Bool :=
  c.isDigit || c.isWhitespace || c == '-' || c == '+' || c == '(' || c == ')'

/-- The phone test of the create route, `/^[\d\s\-\+\(\)]+$/`. -/
def phoneValid (s : String) : Bool :=
  !s.data.isEmpty && s.data.all phoneCharOk

/-- The truthiness check `!first_name || !last_name || !email || !phone ||
!address` of both routes, i.e. all five fields non-empty. -/
def allFieldsPresent (f : CustomerFields) : Bool :=
  !f.first_name.isEmpty && !f.last_name.isEmpty && !f.email.isEmpty &&
  !f.phone.isEmpty && !f.address.isEmpty

/-- Validation of the create route (`app.js`, POST `/`): required fields,
email format, phone format, each with the route's error message.  Returns
the error sent with status 400, or `none` when validation passes. -/
def createValidation (f : CustomerFields) : Option CrudError :=
  if !allFieldsPresent f then
    some (.ValidationError "All fields are required")
  else if !emailValid f.email then
    some (.ValidationError "Invalid email format")
  else if !phoneValid f.phone then
    some (.ValidationError "Invalid phone format")
  else
    none

/-- Validation of the update route (`app.js`, PUT `/:id`): required fields
and email format.  The update handler performs no phone-format check. -/
def updateValidation (f : CustomerFields) : Option CrudError :=
  if !allFieldsPresent f then
    some (.ValidationError "All fields are required")
  else if !emailValid f.email then
    some (.ValidationError "Invalid email format")
  else
    none

/-! ### The ownership-scoped Customer model

The model module called by the routes of `app.js` (`Customer.findById`,
`findAllByUserId`, `create`, `update`, `delete`) is not part of the source
tree; only its callers and their comments are.  Its operations are
modelled from the spec below. -/

/-- Modelled from the spec: `Customer.findById(customerId, userId)` of the
missing ownership-scoped model — returns the record only when a row with
this id exists and belongs to `userId`. -/
def findById (s : Store) (id uid : Nat) : Option OwnedCustomer :=
  s.records.find? (fun r => r.id == id && r.user_id == uid)

/-- Modelled from the spec: `Customer.create` of the missing ownership-scoped
model — rejects an email already present in the store (uniqueness across
all owners), otherwise persists a new row with a fresh id, the current
timestamp, and `user_id` set to the caller. -/
def modelCreate (s : Store) (now uid : Nat) (f : CustomerFields) :
    Except CrudError (OwnedCustomer × Store) :=
  if s.records.any (fun r => r.email == f.email) then
    .error .DuplicateEmailError
  else
    let r : OwnedCustomer :=
      { id := s.nextId, first_name := f.first_name, last_name := f.last_name,
        email := f.email, phone := f.phone, address := f.address,
        user_id := uid, date_created := now }
    .ok (r, { records := r :: s.records, nextId := s.nextId + 1 })

/-- Modelled from the spec: `Customer.findAllByUserId(userId)` of the missing
ownership-scoped model — only the caller's records, ordered by
`date_created` descending (most recent first). -/
def findAllByUserId (s : Store) (uid : Nat) : List OwnedCustomer :=
  (s.records.filter (fun r => r.user_id == uid)).mergeSort
    (fun a b => b.date_created ≤ a.date_created)

/-- Modelled from the spec: `Customer.update(customerId, fields, userId)` of
the missing ownership-scoped model — fails with the uniform not-found
error (`Customer not found or unauthorized`) when the row is absent or
owned by someone else, with the duplicate-email error when another row
already uses the email, and otherwise replaces all five mutable fields
atomically. -/
def modelUpdate (s : Store) (id : Nat) (f : CustomerFields) (uid : Nat) :
    Except CrudError (OwnedCustomer × Store) :=
  match findById s id uid with
  | none => .error .NotFoundError
  | some r =>
    if s.records.any (fun q => q.email == f.email && q.id != id) then
      .error .DuplicateEmailError
    else
      let r2 : OwnedCustomer :=
        { r with first_name := f.first_name, last_name := f.last_name,
                 email := f.email, phone := f.phone, address := f.address }
      .ok (r2, { s with records := s.records.map (fun q => if q.id == id then r2 else q) })

/-- Modelled from the spec: `Customer.delete(customerId, userId)` of the
missing ownership-scoped model — fails with the uniform not-found error
when the row is absent or owned by someone else, otherwise removes the
row permanently. -/
def modelDelete (s : Store) (id uid : Nat) : Except CrudError Store :=
  match findById s id uid with
  | none => .error .NotFoundError
  | some _ => .ok { s with records := s.records.filter (fun r => r.id != id) }

/-! ### The ownership-scoped route operations (`app.js`, JWT variant) -/

/-- POST `/` of the ownership variant: route validation, then the model's
create with `user_id := req.user.id`. -/
def createOp (s : Store) (now uid : Nat) (f : CustomerFields) :
    Except CrudError (OwnedCustomer × Store) :=
  match createValidation f with
  | some e => .error e
  | none => modelCreate s now uid f

/-- GET `/:id` of the ownership variant: `Customer.findById(id, req.user.id)`;
a missing or foreign row is answered with the 404 error. -/
def getOp (s : Store) (uid id : Nat) : Except CrudError OwnedCustomer :=
  match findById s id uid with
  | none => .error .NotFoundError
  | some r => .ok r

/-- GET `/` of the ownership variant: `Customer.findAllByUserId(req.user.id)`;
the empty list is returned as a normal 200 response. -/
def listOp (s : Store) (uid : Nat) : List OwnedCustomer :=
  findAllByUserId s uid

/-- PUT `/:id` of the ownership variant: route validation (required fields
and email format only), then the model's ownership-checked update. -/
def updateOp (s : Store) (uid id : Nat) (f : CustomerFields) :
    Except CrudError (OwnedCustomer × Store) :=
  match updateValidation f with
  | some e => .error e
  | none => modelUpdate s id f uid

/-- DELETE `/:id` of the ownership variant: the model's ownership-checked
delete. -/
def deleteOp (s : Store) (uid id : Nat) : Except CrudError Store :=
  modelDelete s id uid

/-- Store well-formedness: ids are store-assigned and pairwise distinct. -/
def Store.wf (s : Store) : Prop :=
  s.records.Pairwise (fun a b => a.id ≠ b.id)

/-! ### The Sequelize variant (`backend/routes/customers.js`,
`backend/models/Customer.js`)

These routes mount no authentication middleware and the model has no
owner column (`schema.sql` defines `customers` without a `user_id`);
every lookup is by primary key only. -/

/-- A customer row of the Sequelize variant (`models/Customer.js` /
`schema.sql`): auto-increment id, the five fields, and `date_created`.
There is no owner column. -/
structure SeqCustomer where
  id : Nat
  first_name : String
  last_name : String
  email : String
  phone : String
  address : String
  date_created : Nat
deriving Repr, DecidableEq

/-- The record store of the Sequelize variant: just the rows (plus the next
auto-increment id, unused by the read paths). -/
structure SeqStore where
  records : List SeqCustomer
deriving Repr, DecidableEq

/-- `Customer.findByPk(req.params.id)`: primary-key lookup, no owner
filter. -/
def seqFindByPk (s : SeqStore) (id : Nat) : Option SeqCustomer :=
  s.records.find? (fun r => r.id == id)

/-- GET `/:id` of the Sequelize variant: `findByPk`, 404 when absent.  The
handler reads no caller identity. -/
def seqGetOp (s : SeqStore) (id : Nat) : Except CrudError SeqCustomer :=
  match seqFindByPk s id with
  | none => .error .NotFoundError
  | some r => .ok r

/-- GET `/` of the Sequelize variant: `Customer.findAll` over the whole
table, ordered by `date_created` descending.  No owner filter, no caller
identity. -/
def seqListOp (s : SeqStore) : List SeqCustomer :=
  s.records.mergeSort (fun a b => b.date_created ≤ a.date_created)

/-- PUT `/:id` of the Sequelize variant: `findByPk` then
`customer.update(...)`, replacing the five fields; a violated email
uniqueness constraint is answered with the duplicate-email error
(`SequelizeUniqueConstraintError` branch).  Sequelize's field validators
run inside the external ORM collaborator and are not modelled; the claims
about this variant concern only primary-key location and the absence of
an owner check. -/
def seqUpdateOp (s : SeqStore) (id : Nat) (f : CustomerFields) :
    Except CrudError (SeqCustomer × SeqStore) :=
  match seqFindByPk s id with
  | none => .error .NotFoundError
  | some r =>
    if s.records.any (fun q => q.email == f.email && q.id != id) then
      .error .DuplicateEmailError
    else
      let r2 : SeqCustomer :=
        { r with first_name := f.first_name, last_name := f.last_name,
                 email := f.email, phone := f.phone, address := f.address }
      .ok (r2, ⟨s.records.map (fun q => if q.id == id then r2 else q)⟩)

/-- DELETE `/:id` of the Sequelize variant: `findByPk` then
`customer.destroy()`; 404 when the id is absent.  No owner check. -/
def seqDeleteOp (s : SeqStore) (id : Nat) : Except CrudError SeqStore :=
  match seqFindByPk s id with
  | none => .error .NotFoundError
  | some _ => .ok ⟨s.records.filter (fun r => r.id != id)⟩

/-- Id-uniqueness of the Sequelize store. -/
def SeqStore.wf (s : SeqStore) : Prop :=
  s.records.Pairwise (fun a b => a.id ≠ b.id)

/-- The rows handed to the CSV and PDF generators by the export routes
(GET `/export/csv` and GET `/export/pdf`): `Customer.findAll` over the
whole table ordered by `date_created` descending — the same query as the
list route, with no owner filter. -/
def seqExportRows (s : SeqStore) : List SeqCustomer :=
  seqListOp s

/-! ### CSV export (`backend/utils/csvExport.js` with the `csv-writer`
object writer)

`exportToCSV` configures seven columns and calls `writeRecords`; the
written content is the header line plus `records.join` semantics of the
library: each line is the fields in declared column order, a field being
quoted (with inner quotes doubled) exactly when it contains the field
delimiter, a carriage return, a newline, or a quote. -/

/-- The quoting trigger of the csv-writer field stringifier. -/
def needsQuote (s : String) : Bool :=
  s.data.any (fun c => c == ',' || c == '\r' || c == '\n' || c == '"')

/-- Doubling of inner quotes, the `replace` of the csv-writer field
stringifier. -/
def escapeQuotesL : List Char → List Char
  | [] => []
  | c :: rest => if c = '"' then '"' :: '"' :: escapeQuotesL rest else c :: escapeQuotesL rest

/-- Doubling of inner quotes applied to a string. -/
def escapeQuotes (s : String) : String :=
  ⟨escapeQuotesL s.data⟩

/-- One stringified CSV field: quoted with doubled inner quotes when the
quoting trigger fires, verbatim otherwise. -/
def csvField (s : String) : String :=
  if needsQuote s then "\"" ++ escapeQuotes s ++ "\"" else s

/-- `Array.prototype.join` with a one-character separator, used by the
csv-writer for both the fields of a line and the lines of the file. -/
def joinChar (sep : Char) : List String → String
  | [] => ""
  | [s] => s
  | s :: rest => s ++ String.singleton sep ++ joinChar sep rest

/-- The seven cell values of a record, in the declared column order
(`id`, `first_name`, `last_name`, `email`, `phone`, `address`,
`date_created`), each passed through `String(value)`. -/
def csvCells (c : SeqCustomer) : List String :=
  [toString c.id, c.first_name, c.last_name, c.email, c.phone, c.address,
   toString c.date_created]

/-- One data line: the stringified cells joined by the comma delimiter. -/
def csvRecordLine (c : SeqCustomer) : String :=
  joinChar ',' ((csvCells c).map csvField)

/-- The header line produced from the seven configured column titles. -/
def csvHeaderLine : String :=
  "ID,First Name,Last Name,Email,Phone,Address,Date Created"

/-- The file content written by `exportToCSV`: the header line with its
record delimiter, then `stringifyRecords` = the data lines joined by the
record delimiter with one trailing record delimiter.  There is no branch
on an empty record list. -/
def exportToCSVContent (cs : List SeqCustomer) : String :=
  csvHeaderLine ++ "\n" ++ (joinChar '\n' (cs.map csvRecordLine) ++ "\n")

/-- The error kind the spec assigns to the CSV export of zero rows. -/
inductive ExportError where
  | EmptyInputError
deriving Repr, DecidableEq

/-- The CSV export as observed by the route: the promise resolves with the
written file for every input list (file-system failures belong to the
external collaborator).  `exportToCSV` contains no empty-input branch, so
no `ExportError` is ever produced. -/
def exportToCSVRun (cs : List SeqCustomer) : Except ExportError String :=
  .ok (exportToCSVContent cs)

/-- Splitting a character stream at every newline, the line structure of the
produced file (semantics of `splitOn` over the record delimiter). -/
def splitLines (l : List Char) : List (List Char) :=
  splitOnChar '\n' l

/-! ### PDF export (`backend/utils/csvExport.js`, `exportToPDF`)

The imperative pdfkit drawing sequence is embedded as a list of abstract
drawing commands.  The title and generated-on texts are not load-bearing
for any claim and are omitted; the table starts at `tableTop = 150`, the
header separator line is stroked at `y + 15 = 165`, the cursor advances
by `itemHeight = 30` per row, a new page (cursor reset to 50) is started
whenever the cursor exceeds 700 before a row is drawn, a separator line
follows every data row except the last, and one footer with the total
record count is drawn 20 below the final cursor. -/

/-- An abstract pdfkit drawing command of `exportToPDF`: a page break, a data
row (page, cursor, and the four printed cells), a stroked separator line,
or the single footer text. -/
inductive PdfCmd where
  | addPage
  | row (page y : Nat) (id : Nat) (name email phone : String)
  | sepLine (page y : Nat)
  | footer (page y : Nat) (text : String)
deriving Repr, DecidableEq

/-- The `customers.forEach` loop of `exportToPDF`, carrying the current page
and cursor: before each row, a page break when `y > 700` (cursor reset to
50); then the row (`ID`, `first_name + ' ' + last_name`, email, phone) at
the cursor; cursor advance by 30; and a separator line at `y - 15` unless
the row is the last.  Returns the emitted commands with the final page
and cursor. -/
def pdfTableCmds : List SeqCustomer → Nat → Nat → List PdfCmd × Nat × Nat
  | [], page, y => ([], page, y)
  | c :: rest, page, y =>
    let brk := y > 700
    let page1 := if brk then page + 1 else page
    let y1 := if brk then 50 else y
    let rowCmd := PdfCmd.row page1 y1 c.id (c.first_name ++ " " ++ c.last_name) c.email c.phone
    let y2 := y1 + 30
    let sepCmds := if rest = [] then [] else [PdfCmd.sepLine page1 (y2 - 15)]
    let rec2 := pdfTableCmds rest page1 y2
    ((if brk then [PdfCmd.addPage] else []) ++ rowCmd :: sepCmds ++ rec2.1, rec2.2)

/-- The command stream of `exportToPDF`: the header separator line on page 1
at 165, the table loop started at cursor `tableTop + 30 = 180`, and the
single footer `Total Customers: <count>` at 20 below the final cursor on
the final page. -/
def exportToPDFCmds (cs : List SeqCustomer) : List PdfCmd :=
  let t := pdfTableCmds cs 1 180
  PdfCmd.sepLine 1 165 :: t.1 ++
    [PdfCmd.footer t.2.1 (t.2.2 + 20) ("Total Customers: " ++ toString cs.length)]

/-- Recognises a page-break command. -/
def isAddPage : PdfCmd → Bool
  | .addPage => true
  | _ => false

/-- Recognises a separator-line command. -/
def isSepLine : PdfCmd → Bool
  | .sepLine _ _ => true
  | _ => false

/-- Recognises the footer command. -/
def isFooter : PdfCmd → Bool
  | .footer _ _ _ => true
  | _ => false

/-- The printed cells of a row command. -/
def rowCells : PdfCmd → Option (Nat × String × String × String)
  | .row _ _ i n e p => some (i, n, e, p)
  | _ => none

/-! ### Concrete sample data (scenario of the spec) -/

/-- A valid field bundle, the scenario bundle of the spec. -/
def sampleFields : CustomerFields :=
  ⟨"Jo", "Li", "jo@x.com", "555-0101", "1 Main St"⟩

/-- A bundle whose phone violates the permitted character class while all
other checks pass. -/
def badPhoneFields : CustomerFields :=
  ⟨"Jo", "Li", "jo@x.com", "abc", "1 Main St"⟩

/-- A second valid bundle reusing the email of `sampleFields`. -/
def dupEmailFields : CustomerFields :=
  ⟨"An", "Bo", "jo@x.com", "555-0102", "2 Oak Ave"⟩

/-- A stored record of owner 1. -/
def sampleOwned : OwnedCustomer :=
  ⟨1, "Jo", "Li", "jo@x.com", "555-0101", "1 Main St", 1, 0⟩

/-- An ownership-scoped store holding exactly the record of owner 1. -/
def sampleStore : Store := ⟨[sampleOwned], 2⟩

/-- The empty ownership-scoped store. -/
def emptyStore : Store := ⟨[], 1⟩

/-- A Sequelize-variant row. -/
def sampleSeq1 : SeqCustomer :=
  ⟨1, "Jo", "Li", "jo@x.com", "555-0101", "1 Main St", 7⟩

/-- A second Sequelize-variant row. -/
def sampleSeq2 : SeqCustomer :=
  ⟨2, "An", "Bo", "an@y.com", "555-0102", "2 Oak Ave", 8⟩

/-- A Sequelize-variant store with two rows. -/
def sampleSeqStore : SeqStore := ⟨[sampleSeq1, sampleSeq2]⟩

/-! ### Helper lemmas -/

theorem splitOnChar_append_sep (sep : Char) (a r : List Char) (h : sep ∉ a) :
    splitOnChar sep (a ++ sep :: r) = a :: splitOnChar sep r := by
  induction a with
  | nil => simp [splitOnChar]
  | cons c cs ih =>
    simp only [List.mem_cons, not_or] at h
    obtain ⟨hc, hcs⟩ := h
    have hc2 : c ≠ sep := fun hh => hc hh.symm
    have hrec := ih hcs
    simp only [List.cons_append, splitOnChar, if_neg hc2, List.append_eq, hrec]

theorem splitLines_append_newline (a r : List Char) (h : '\n' ∉ a) :
    splitLines (a ++ '\n' :: r) = a :: splitLines r := by
  unfold splitLines
  exact splitOnChar_append_sep '\n' a r h

theorem joinChar_comma_no_newline (fs : List String)
    (h : ∀ f ∈ fs, '\n' ∉ f.data) : '\n' ∉ (joinChar ',' fs).data := by
  induction fs with
  | nil => simp [joinChar, String.data]
  | cons s rest ih =>
    cases rest with
    | nil => exact fun hm => h s (by simp) hm
    | cons t ts =>
      simp only [joinChar, String.data_append, List.mem_append, not_or]
      refine ⟨⟨h s (by simp), ?_⟩, ?_⟩
      · show '\n' ∉ (String.singleton ',').data
        simp [String.singleton]
      · exact ih (fun f hf => h f (List.mem_cons_of_mem s hf))

theorem escapeQuotesL_no_newline (l : List Char) (h : '\n' ∉ l) :
    '\n' ∉ escapeQuotesL l := by
  induction l with
  | nil => simp [escapeQuotesL]
  | cons c rest ih =>
    simp only [List.mem_cons, not_or] at h
    obtain ⟨hc, hrest⟩ := h
    simp only [escapeQuotesL]
    split
    · simp only [List.mem_cons, not_or]
      exact ⟨by decide, by decide, ih hrest⟩
    · simp only [List.mem_cons, not_or]
      exact ⟨hc, ih hrest⟩

theorem csvField_no_newline (s : String) (h : '\n' ∉ s.data) :
    '\n' ∉ (csvField s).data := by
  unfold csvField
  split
  · simp only [String.data_append, List.mem_append, not_or]
    refine ⟨⟨by simp [String.data], ?_⟩, by simp [String.data]⟩
    show '\n' ∉ (escapeQuotes s).data
    simpa [escapeQuotes] using escapeQuotesL_no_newline s.data h
  · exact h

theorem csvRecordLine_no_newline (c : SeqCustomer)
    (h : ∀ f ∈ csvCells c, '\n' ∉ f.data) : '\n' ∉ (csvRecordLine c).data := by
  unfold csvRecordLine
  apply joinChar_comma_no_newline
  intro g hg
  rw [List.mem_map] at hg
  obtain ⟨f, hf, rfl⟩ := hg
  exact csvField_no_newline f (h f hf)

theorem splitLines_joinChar_lines (ls : List String) (hne : ls ≠ [])
    (h : ∀ l ∈ ls, '\n' ∉ l.data) :
    splitLines ((joinChar '\n' ls).data ++ ['\n']) = ls.map String.data ++ [[]] := by
  induction ls with
  | nil => exact absurd rfl hne
  | cons s rest ih =>
    cases rest with
    | nil =>
      show splitLines (s.data ++ '\n' :: []) = [s.data, []]
      rw [splitLines_append_newline s.data [] (h s (by simp))]
      rfl
    | cons t ts =>
      have hstep : joinChar '\n' (s :: t :: ts) = s ++ String.singleton '\n' ++ joinChar '\n' (t :: ts) := rfl
      rw [hstep]
      have hdata : (s ++ String.singleton '\n' ++ joinChar '\n' (t :: ts)).data ++ ['\n']
          = s.data ++ '\n' :: ((joinChar '\n' (t :: ts)).data ++ ['\n']) := by
        simp [String.data_append, String.singleton]
      rw [hdata, splitLines_append_newline s.data _ (h s (by simp))]
      rw [ih (by simp) (fun l hl => h l (List.mem_cons_of_mem s hl))]
      rfl

theorem splitLines_csvContent (cs : List SeqCustomer) (hne : cs ≠ [])
    (h : ∀ c ∈ cs, ∀ f ∈ csvCells c, '\n' ∉ f.data) :
    splitLines (exportToCSVContent cs).data =
      csvHeaderLine.data :: cs.map (fun c => (csvRecordLine c).data) ++ [[]] := by
  have hhead : '\n' ∉ csvHeaderLine.data := by decide
  have hdata : (exportToCSVContent cs).data
      = csvHeaderLine.data ++ '\n' :: ((joinChar '\n' (cs.map csvRecordLine)).data ++ ['\n']) := by
    simp [exportToCSVContent, String.data_append]
  rw [hdata, splitLines_append_newline _ _ hhead]
  rw [splitLines_joinChar_lines (cs.map csvRecordLine) (by simpa using hne)]
  · simp [List.map_map]
  · intro l hl
    rw [List.mem_map] at hl
    obtain ⟨c, hc, rfl⟩ := hl
    exact csvRecordLine_no_newline c (h c hc)

/-! ### Claim theorems -/

/-- C3, counterexample: `exportToCSV` applied to the empty record sequence
does not fail with `EmptyInputError` — it succeeds, writing the header
line followed by the record-delimiter of the empty record string. -/
theorem C3_csv_empty_counterexample :
    exportToCSVRun [] ≠ Except.error ExportError.EmptyInputError ∧
    exportToCSVContent [] =
      "ID,First Name,Last Name,Email,Phone,Address,Date Created\n\n" := by
  constructor
  · simp [exportToCSVRun]
  · rfl

/-- C3, amended: `ToCSV` applied to the empty sequence succeeds and produces
a header-only file: its line structure is the seven fixed header titles,
then two empty lines (the trailing record delimiters); no
`EmptyInputError` path exists in the export. -/
theorem C3_csv_empty_header_only :
    splitLines (exportToCSVContent []).data = [csvHeaderLine.data, [], []] ∧
    exportToCSVRun [] = Except.ok (exportToCSVContent []) := by
  exact ⟨by decide, rfl⟩

/-- C4, counterexample: a bundle whose phone fails the permitted character
class is rejected by the create route with the phone `ValidationError`,
but accepted by the update route — update does not apply the same field
validation as create. -/
theorem C4_phone_validation_counterexample :
    createValidation badPhoneFields =
      some (CrudError.ValidationError "Invalid phone format") ∧
    updateValidation badPhoneFields = none ∧
    createOp sampleStore 5 1 badPhoneFields =
      Except.error (CrudError.ValidationError "Invalid phone format") ∧
    (updateOp sampleStore 1 1 badPhoneFields).isOk = true := by
  refine ⟨by decide, by decide, rfl, rfl⟩

/-- C4, amended: update applies the presence check on all five fields and
the email-pattern check of create, and fails with `ValidationError`
exactly when one of those two fails; it omits the phone character-class
check, so every bundle passing create validation passes update
validation, but not conversely. -/
theorem C4_update_validation_omits_phone (f : CustomerFields) :
    (updateValidation f = none ↔
      allFieldsPresent f = true ∧ emailValid f.email = true) ∧
    (createValidation f = none ↔
      allFieldsPresent f = true ∧ emailValid f.email = true ∧
      phoneValid f.phone = true) ∧
    (createValidation f = none → updateValidation f = none) := by
  cases hp : allFieldsPresent f <;> cases he : emailValid f.email <;>
    cases hph : phoneValid f.phone <;>
      simp [createValidation, updateValidation, hp, he, hph]

theorem findById_none_of_other_owner (s : Store) (hwf : s.wf) (A B : Nat)
    (hAB : A ≠ B) {r : OwnedCustomer} (hr : r ∈ s.records) (hA : r.user_id = A) :
    findById s r.id B = none := by
  unfold findById
  rw [List.find?_eq_none]
  intro q hq
  simp only [Bool.and_eq_true, beq_iff_eq, not_and]
  intro hid huid
  have hqr : q = r := by
    by_contra hne
    exact List.Pairwise.forall (fun x y hxy => hxy.symm) hwf hq hr hne hid
  subst hqr
  exact hAB (hA.symm.trans huid)

theorem findById_none_of_absent (s : Store) (id2 uid : Nat)
    (h : ∀ q ∈ s.records, q.id ≠ id2) : findById s id2 uid = none := by
  unfold findById
  rw [List.find?_eq_none]
  intro q hq
  simp only [Bool.and_eq_true, beq_iff_eq, not_and]
  intro hid
  exact (h q hq hid).elim

/-- C1: for distinct owners A and B, a record created by A is invisible to
B: `get`, `update` (with a bundle passing update validation) and `delete`
invoked as B on the id of the record answer the uniform `NotFoundError`,
the record is absent from the listing of B, and the `get` response equals
the response for an id that does not exist at all (and `update`/`delete`
answer identically on such an id), so non-existence and foreign ownership
are indistinguishable. -/
theorem C1_ownership_isolation (s : Store) (hwf : s.wf) (A B : Nat)
    (hAB : A ≠ B) (r : OwnedCustomer) (hr : r ∈ s.records) (hA : r.user_id = A)
    (f : CustomerFields) (hv : updateValidation f = none) :
    getOp s B r.id = Except.error CrudError.NotFoundError ∧
    updateOp s B r.id f = Except.error CrudError.NotFoundError ∧
    deleteOp s B r.id = Except.error CrudError.NotFoundError ∧
    r ∉ listOp s B ∧
    ∀ id2, (∀ q ∈ s.records, q.id ≠ id2) →
      getOp s B r.id = getOp s B id2 ∧
      updateOp s B id2 f = Except.error CrudError.NotFoundError ∧
      deleteOp s B id2 = Except.error CrudError.NotFoundError := by
  have hfb := findById_none_of_other_owner s hwf A B hAB hr hA
  refine ⟨?_, ?_, ?_, ?_, ?_⟩
  · simp [getOp, hfb]
  · simp [updateOp, hv, modelUpdate, hfb]
  · simp [deleteOp, modelDelete, hfb]
  · intro hmem
    have hflt : r ∈ s.records.filter (fun q => q.user_id == B) := by
      simpa [listOp, findAllByUserId] using hmem
    rw [List.mem_filter] at hflt
    have hB : r.user_id = B := by simpa using hflt.2
    exact hAB (hA.symm.trans hB)
  · intro id2 h2
    have hfb2 := findById_none_of_absent s id2 B h2
    exact ⟨by simp [getOp, hfb, hfb2],
           by simp [updateOp, hv, modelUpdate, hfb2],
           by simp [deleteOp, modelDelete, hfb2]⟩

/-- Witness for C1: owner 2 cannot see the record of owner 1 in the sample
store, and an absent id answers identically. -/
theorem C1_ownership_isolation_witness :
    getOp sampleStore 2 sampleOwned.id = Except.error CrudError.NotFoundError ∧
    updateOp sampleStore 2 sampleOwned.id sampleFields =
      Except.error CrudError.NotFoundError ∧
    deleteOp sampleStore 2 sampleOwned.id = Except.error CrudError.NotFoundError ∧
    sampleOwned ∉ listOp sampleStore 2 ∧
    ∀ id2, (∀ q ∈ sampleStore.records, q.id ≠ id2) →
      getOp sampleStore 2 sampleOwned.id = getOp sampleStore 2 id2 ∧
      updateOp sampleStore 2 id2 sampleFields = Except.error CrudError.NotFoundError ∧
      deleteOp sampleStore 2 id2 = Except.error CrudError.NotFoundError :=
  C1_ownership_isolation sampleStore (by simp [Store.wf, sampleStore]) 1 2
    (by decide) sampleOwned (by simp [sampleStore]) rfl sampleFields (by decide)

/-- C2: when a create succeeds and a second create (with a bundle passing
validation) reuses the same email — whatever the owners — the second
fails with `DuplicateEmailError`, the first record is still present in
the store with its email intact (the failed create returns no new store,
so no partial write exists), and the duplicate error is a distinct
constructor from the generic persistence failure. -/
theorem C2_duplicate_email (s : Store) (now1 now2 uid1 uid2 : Nat)
    (f1 f2 : CustomerFields) (r1 : OwnedCustomer) (s1 : Store)
    (h1 : createOp s now1 uid1 f1 = Except.ok (r1, s1))
    (he : f2.email = f1.email) (hv2 : createValidation f2 = none) :
    createOp s1 now2 uid2 f2 = Except.error CrudError.DuplicateEmailError ∧
    r1 ∈ s1.records ∧ r1.email = f1.email ∧
    CrudError.DuplicateEmailError ≠ CrudError.PersistenceError := by
  unfold createOp at h1
  cases hcv : createValidation f1 with
  | some e => rw [hcv] at h1; exact absurd h1 (by simp)
  | none =>
    rw [hcv] at h1
    unfold modelCreate at h1
    by_cases hdup : s.records.any (fun r => r.email == f1.email) = true
    · rw [if_pos hdup] at h1; exact absurd h1 (by simp)
    · rw [if_neg hdup] at h1
      simp only [Except.ok.injEq, Prod.mk.injEq] at h1
      obtain ⟨hr1, hs1⟩ := h1
      subst hr1
      subst hs1
      refine ⟨?_, by simp, rfl, by simp⟩
      simp [createOp, hv2, modelCreate, he]

/-- Witness for C2 at the scenario of the spec: owner 1 creates the sample
bundle in the empty store; owner 2 creating the same email fails with the
duplicate error. -/
theorem C2_duplicate_email_witness :
    createOp ⟨[⟨1, "Jo", "Li", "jo@x.com", "555-0101", "1 Main St", 1, 0⟩], 2⟩
        3 2 dupEmailFields = Except.error CrudError.DuplicateEmailError ∧
    (⟨1, "Jo", "Li", "jo@x.com", "555-0101", "1 Main St", 1, 0⟩ : OwnedCustomer) ∈
      (⟨[⟨1, "Jo", "Li", "jo@x.com", "555-0101", "1 Main St", 1, 0⟩], 2⟩ : Store).records ∧
    (⟨1, "Jo", "Li", "jo@x.com", "555-0101", "1 Main St", 1, 0⟩ : OwnedCustomer).email =
      sampleFields.email ∧
    CrudError.DuplicateEmailError ≠ CrudError.PersistenceError :=
  C2_duplicate_email emptyStore 0 3 1 2 sampleFields dupEmailFields
    ⟨1, "Jo", "Li", "jo@x.com", "555-0101", "1 Main St", 1, 0⟩
    ⟨[⟨1, "Jo", "Li", "jo@x.com", "555-0101", "1 Main St", 1, 0⟩], 2⟩
    rfl rfl (by decide)

/-- C7: the listing of an owner consists of exactly the records whose owner
matches (a permutation of the ownership filter of the store), is ordered
by creation timestamp descending, every listed record belongs to the
caller, and an owner without records receives the empty list as a normal
result. -/
theorem C7_list_owner_scoped (s : Store) (uid : Nat) :
    (listOp s uid).Perm (s.records.filter (fun r => r.user_id == uid)) ∧
    (listOp s uid).Pairwise (fun a b => b.date_created ≤ a.date_created) ∧
    (∀ r ∈ listOp s uid, r.user_id = uid) ∧
    ((∀ r ∈ s.records, r.user_id ≠ uid) → listOp s uid = []) := by
  refine ⟨?_, ?_, ?_, ?_⟩
  · simp only [listOp, findAllByUserId]
    exact List.mergeSort_perm _ _
  · simp only [listOp, findAllByUserId]
    refine List.Pairwise.imp ?_
      (List.sorted_mergeSort ?_ ?_ (s.records.filter (fun r => r.user_id == uid)))
    · intro a b hab
      exact of_decide_eq_true hab
    · intro a b c hab hbc
      simp only [decide_eq_true_eq] at hab hbc ⊢
      omega
    · intro a b
      simp only [Bool.or_eq_true, decide_eq_true_eq]
      omega
  · intro r hr
    have hflt : r ∈ s.records.filter (fun q => q.user_id == uid) := by
      simpa [listOp, findAllByUserId] using hr
    rw [List.mem_filter] at hflt
    simpa using hflt.2
  · intro hnone
    have hflt : s.records.filter (fun r => r.user_id == uid) = [] := by
      rw [List.filter_eq_nil_iff]
      intro q hq
      simpa using hnone q hq
    simp [listOp, findAllByUserId, hflt]

/-- Witness for C7 at the sample store: owner 1 receives the single record,
owner 2 receives the empty list. -/
theorem C7_list_owner_scoped_witness :
    (listOp sampleStore 2).Perm
      (sampleStore.records.filter (fun r => r.user_id == 2)) ∧
    (listOp sampleStore 2).Pairwise (fun a b => b.date_created ≤ a.date_created) ∧
    (∀ r ∈ listOp sampleStore 2, r.user_id = 2) ∧
    ((∀ r ∈ sampleStore.records, r.user_id ≠ 2) → listOp sampleStore 2 = []) :=
  C7_list_owner_scoped sampleStore 2

/-- C8: a create with a validation-passing bundle and a fresh email succeeds
with a record carrying exactly the supplied fields, the owner, the fresh
store-assigned id and the creation timestamp, and `get` by the same owner
on the new id returns exactly that record. -/
theorem C8_create_get_roundtrip (s : Store) (now uid : Nat) (f : CustomerFields)
    (hv : createValidation f = none)
    (hfresh : ∀ q ∈ s.records, q.email ≠ f.email) :
    ∃ r s2, createOp s now uid f = Except.ok (r, s2) ∧
      r.first_name = f.first_name ∧ r.last_name = f.last_name ∧
      r.email = f.email ∧ r.phone = f.phone ∧ r.address = f.address ∧
      r.user_id = uid ∧ r.date_created = now ∧ r.id = s.nextId ∧
      getOp s2 uid r.id = Except.ok r := by
  have hdup : s.records.any (fun q => q.email == f.email) = false := by
    rw [List.any_eq_false]
    intro q hq
    simpa using hfresh q hq
  refine ⟨⟨s.nextId, f.first_name, f.last_name, f.email, f.phone, f.address, uid, now⟩,
    ⟨⟨s.nextId, f.first_name, f.last_name, f.email, f.phone, f.address, uid, now⟩ :: s.records,
      s.nextId + 1⟩, ?_, rfl, rfl, rfl, rfl, rfl, rfl, rfl, rfl, ?_⟩
  · simp [createOp, hv, modelCreate, hdup]
  · unfold getOp findById
    rw [List.find?_cons_of_pos _ (by simp)]

/-- Witness for C8: creating the sample bundle as owner 1 in the empty store
and reading it back. -/
theorem C8_create_get_roundtrip_witness :
    ∃ r s2, createOp emptyStore 0 1 sampleFields = Except.ok (r, s2) ∧
      r.first_name = sampleFields.first_name ∧ r.last_name = sampleFields.last_name ∧
      r.email = sampleFields.email ∧ r.phone = sampleFields.phone ∧
      r.address = sampleFields.address ∧
      r.user_id = 1 ∧ r.date_created = 0 ∧ r.id = emptyStore.nextId ∧
      getOp s2 1 r.id = Except.ok r :=
  C8_create_get_roundtrip emptyStore 0 1 sampleFields (by decide)
    (by intro q hq; simp [emptyStore] at hq)

/-- Witness for the amended C4 at the concrete bad-phone bundle. -/
theorem C4_update_validation_omits_phone_witness :
    (updateValidation badPhoneFields = none ↔
      allFieldsPresent badPhoneFields = true ∧
      emailValid badPhoneFields.email = true) ∧
    (createValidation badPhoneFields = none ↔
      allFieldsPresent badPhoneFields = true ∧
      emailValid badPhoneFields.email = true ∧
      phoneValid badPhoneFields.phone = true) ∧
    (createValidation badPhoneFields = none →
      updateValidation badPhoneFields = none) :=
  C4_update_validation_omits_phone badPhoneFields

theorem pdfTableCmds_no_footer (cs : List SeqCustomer) (p y : Nat) :
    ((pdfTableCmds cs p y).1.countP isFooter) = 0 := by
  induction cs generalizing p y with
  | nil => simp [pdfTableCmds]
  | cons c rest ih =>
    by_cases hre : rest = []
    · subst hre
      by_cases hb : 700 < y <;> simp [pdfTableCmds, hb, isFooter]
    · by_cases hb : 700 < y <;>
        simp [pdfTableCmds, hb, hre, isFooter, List.countP_append,
          List.countP_cons, ih]

theorem pdfTableCmds_filterMap_rows (cs : List SeqCustomer) (p y : Nat) :
    (pdfTableCmds cs p y).1.filterMap rowCells =
      cs.map (fun c => (c.id, c.first_name ++ " " ++ c.last_name, c.email, c.phone)) := by
  induction cs generalizing p y with
  | nil => simp [pdfTableCmds]
  | cons c rest ih =>
    by_cases hre : rest = []
    · subst hre
      by_cases hb : 700 < y <;> simp [pdfTableCmds, hb, rowCells]
    · by_cases hb : 700 < y <;>
        simp [pdfTableCmds, hb, hre, rowCells, List.filterMap_append,
          List.filterMap_cons, ih]

theorem pdfTableCmds_sep_count (cs : List SeqCustomer) (p y : Nat) :
    ((pdfTableCmds cs p y).1.countP isSepLine) = cs.length - 1 := by
  induction cs generalizing p y with
  | nil => simp [pdfTableCmds]
  | cons c rest ih =>
    by_cases hre : rest = []
    · subst hre
      by_cases hb : 700 < y <;> simp [pdfTableCmds, hb, isSepLine]
    · have hlen : 0 < rest.length := List.length_pos.mpr hre
      by_cases hb : 700 < y <;>
        (simp [pdfTableCmds, hb, hre, isSepLine, List.countP_append,
          List.countP_cons, ih]; omega)

theorem pdfTableCmds_no_addPage (cs : List SeqCustomer) (p y : Nat)
    (h : ∀ k, k < cs.length → y + 30 * k ≤ 700) :
    ((pdfTableCmds cs p y).1.countP isAddPage) = 0 := by
  induction cs generalizing p y with
  | nil => simp [pdfTableCmds]
  | cons c rest ih =>
    have h0 : y ≤ 700 := by
      have := h 0 (by simp)
      omega
    have hb : ¬ 700 < y := by omega
    have hrec := ih p (y + 30) (fun k hk => by
      have := h (k + 1) (by simpa using Nat.succ_lt_succ hk)
      omega)
    by_cases hre : rest = []
    · subst hre
      simp [pdfTableCmds, hb, isAddPage]
    · simp [pdfTableCmds, hb, hre, isAddPage, List.countP_append,
        List.countP_cons, hrec]

theorem pdfTableCmds_has_addPage (cs : List SeqCustomer) (p y : Nat)
    (hne : cs ≠ []) (h : 700 < y + 30 * (cs.length - 1)) :
    1 ≤ ((pdfTableCmds cs p y).1.countP isAddPage) := by
  induction cs generalizing p y with
  | nil => exact absurd rfl hne
  | cons c rest ih =>
    by_cases hb : 700 < y
    · by_cases hre : rest = []
      · subst hre
        simp [pdfTableCmds, hb, isAddPage]
      · simp [pdfTableCmds, hb, hre, isAddPage, List.countP_append,
          List.countP_cons]
    · have hrest : rest ≠ [] := by
        intro hnil
        subst hnil
        simp at h
        omega
      have hlen : 0 < rest.length := List.length_pos.mpr hrest
      have hrec := ih p (y + 30) hrest (by
        simp only [List.length_cons] at h
        omega)
      simp [pdfTableCmds, hb, hrest, isAddPage, List.countP_append,
        List.countP_cons]
      exact List.countP_pos_iff.mp hrec

/-- C6: `exportToPDF` does not fail on the empty record sequence — it emits a
document with zero data rows whose footer reads `Total Customers: 0` —
and for every input the footer printing the total record count appears
exactly once, as the final drawing command after all rows. -/
theorem C6_pdf_empty_and_single_footer :
    exportToPDFCmds ([] : List SeqCustomer) =
      [PdfCmd.sepLine 1 165, PdfCmd.footer 1 200 "Total Customers: 0"] ∧
    ∀ cs : List SeqCustomer,
      ((exportToPDFCmds cs).countP isFooter) = 1 ∧
      (exportToPDFCmds cs).getLast? =
        some (PdfCmd.footer (pdfTableCmds cs 1 180).2.1
          ((pdfTableCmds cs 1 180).2.2 + 20)
          ("Total Customers: " ++ toString cs.length)) := by
  refine ⟨by decide, fun cs => ⟨?_, ?_⟩⟩
  · simp [exportToPDFCmds, List.countP_append, List.countP_cons, isFooter,
      pdfTableCmds_no_footer]
  · show (PdfCmd.sepLine 1 165 :: ((pdfTableCmds cs 1 180).1 ++
      [PdfCmd.footer (pdfTableCmds cs 1 180).2.1 ((pdfTableCmds cs 1 180).2.2 + 20)
        ("Total Customers: " ++ toString cs.length)])).getLast? = _
    rw [← List.cons_append, List.getLast?_concat]

/-- C9: the PDF row commands reproduce the records exactly once each, in
input order; a separator line follows every data row except the last
(`length - 1` separators inside the table, plus the header separator as
the first command); and a page break occurs exactly when the cursor
threshold is exceeded — no page break happens iff at most 18 records fit
the first page, so more than 18 records span more than one page while the
row commands still list every record exactly once. -/
theorem C9_pdf_pagination (cs : List SeqCustomer) :
    (exportToPDFCmds cs).filterMap rowCells =
      cs.map (fun c => (c.id, c.first_name ++ " " ++ c.last_name, c.email, c.phone)) ∧
    ((pdfTableCmds cs 1 180).1.countP isSepLine) = cs.length - 1 ∧
    (((exportToPDFCmds cs).countP isAddPage) = 0 ↔ cs.length ≤ 18) ∧
    (exportToPDFCmds cs).head? = some (PdfCmd.sepLine 1 165) := by
  have hexp : ((exportToPDFCmds cs).countP isAddPage) =
      ((pdfTableCmds cs 1 180).1.countP isAddPage) := by
    simp [exportToPDFCmds, List.countP_append, List.countP_cons, isAddPage]
  refine ⟨?_, pdfTableCmds_sep_count cs 1 180, ?_, by simp [exportToPDFCmds]⟩
  · simp [exportToPDFCmds, List.filterMap_append, List.filterMap_cons, rowCells,
      pdfTableCmds_filterMap_rows]
  · rw [hexp]
    constructor
    · intro hz
      by_contra hgt
      push_neg at hgt
      have hpos := pdfTableCmds_has_addPage cs 1 180
        (by intro hnil; subst hnil; simp at hgt) (by omega)
      omega
    · intro hle
      exact pdfTableCmds_no_addPage cs 1 180 (fun k hk => by omega)

theorem find?_id_eq_of_mem {l : List SeqCustomer}
    (hwf : l.Pairwise (fun a b => a.id ≠ b.id)) {r : SeqCustomer} (hr : r ∈ l) :
    l.find? (fun q => q.id == r.id) = some r := by
  induction l with
  | nil => cases hr
  | cons q rest ih =>
    rcases List.mem_cons.mp hr with hqr | hmem
    · subst hqr
      rw [List.find?_cons_of_pos _ (by simp)]
    · have hne : q.id ≠ r.id := (List.pairwise_cons.mp hwf).1 r hmem
      rw [List.find?_cons_of_neg _ (by simpa using hne)]
      exact ih (List.pairwise_cons.mp hwf).2 hmem

/-- C5: for a non-empty record sequence whose field values contain no raw
newline, the exported CSV byte stream splits at the record delimiter into
exactly the fixed seven-title header line, then one line per record in
input order, then the final empty chunk left by the trailing record
delimiter; each data line joins the stringified cells in the declared
column order, and a field is emitted verbatim when it contains no
delimiter, carriage return, newline or quote, and otherwise is wrapped in
quotes with inner quotes doubled. -/
theorem C5_csv_layout (cs : List SeqCustomer) (hne : cs ≠ [])
    (h : ∀ c ∈ cs, ∀ f ∈ csvCells c, '\n' ∉ f.data) :
    splitLines (exportToCSVContent cs).data =
      csvHeaderLine.data :: cs.map (fun c => (csvRecordLine c).data) ++ [[]] ∧
    csvHeaderLine = "ID,First Name,Last Name,Email,Phone,Address,Date Created" ∧
    (∀ c, csvRecordLine c = joinChar ',' ((csvCells c).map csvField)) ∧
    (∀ t : String, needsQuote t = false → csvField t = t) ∧
    (∀ t : String, needsQuote t = true →
      csvField t = "\"" ++ escapeQuotes t ++ "\"") := by
  refine ⟨splitLines_csvContent cs hne h, rfl, fun c => rfl, ?_, ?_⟩
  · intro t ht
    simp [csvField, ht]
  · intro t ht
    simp [csvField, ht]

/-- Witness for C5 at two concrete records. -/
theorem C5_csv_layout_witness :
    splitLines (exportToCSVContent [sampleSeq1, sampleSeq2]).data =
      csvHeaderLine.data ::
        [sampleSeq1, sampleSeq2].map (fun c => (csvRecordLine c).data) ++ [[]] ∧
    csvHeaderLine = "ID,First Name,Last Name,Email,Phone,Address,Date Created" ∧
    (∀ c, csvRecordLine c = joinChar ',' ((csvCells c).map csvField)) ∧
    (∀ t : String, needsQuote t = false → csvField t = t) ∧
    (∀ t : String, needsQuote t = true →
      csvField t = "\"" ++ escapeQuotes t ++ "\"") :=
  C5_csv_layout [sampleSeq1, sampleSeq2] (by simp) (by decide)

/-- C10: the Sequelize-variant routes resolve records by primary key alone
and are invoked with no caller identity (the embedded operations take no
owner argument at all): any stored record — whatever owner concept one
attaches to it — is returned by `get` on its id, is updatable and
deletable through its id, and appears in the listing and in the rows fed
to the CSV/PDF exports, which cover the entire table; an id absent from
the table answers `NotFoundError` for `get`, `update` and `delete`. -/
theorem C10_no_owner_scoping (s : SeqStore) (hwf : s.wf) (r : SeqCustomer)
    (hr : r ∈ s.records) (f : CustomerFields) (id2 : Nat)
    (h2 : ∀ q ∈ s.records, q.id ≠ id2) :
    seqGetOp s r.id = Except.ok r ∧
    seqUpdateOp s r.id f ≠ Except.error CrudError.NotFoundError ∧
    (∃ s2, seqDeleteOp s r.id = Except.ok s2 ∧ r ∉ s2.records ∧
      ∀ q ∈ s.records, q ≠ r → q ∈ s2.records) ∧
    (seqListOp s).Perm s.records ∧ r ∈ seqListOp s ∧
    (seqExportRows s).Perm s.records ∧
    seqGetOp s id2 = Except.error CrudError.NotFoundError ∧
    seqUpdateOp s id2 f = Except.error CrudError.NotFoundError ∧
    seqDeleteOp s id2 = Except.error CrudError.NotFoundError := by
  have hfind : seqFindByPk s r.id = some r := find?_id_eq_of_mem hwf hr
  have hfind2 : seqFindByPk s id2 = none := by
    unfold seqFindByPk
    rw [List.find?_eq_none]
    intro q hq
    simpa using h2 q hq
  refine ⟨?_, ?_, ?_, ?_, ?_, ?_, ?_, ?_, ?_⟩
  · simp [seqGetOp, hfind]
  · simp only [seqUpdateOp, hfind]
    split <;> simp
  · refine ⟨⟨s.records.filter (fun q => q.id != r.id)⟩, ?_, ?_, ?_⟩
    · simp [seqDeleteOp, hfind]
    · simp [List.mem_filter]
    · intro q hq hqr
      rw [List.mem_filter]
      refine ⟨hq, ?_⟩
      have hne : q.id ≠ r.id :=
        List.Pairwise.forall (fun x y hxy => hxy.symm) hwf hq hr hqr
      simpa using hne
  · exact List.mergeSort_perm _ _
  · simp [seqListOp, hr]
  · exact List.mergeSort_perm _ _
  · simp [seqGetOp, hfind2]
  · simp [seqUpdateOp, hfind2]
  · simp [seqDeleteOp, hfind2]

/-- Witness for C10 at the two-row sample store. -/
theorem C10_no_owner_scoping_witness :
    seqGetOp sampleSeqStore sampleSeq1.id = Except.ok sampleSeq1 ∧
    seqUpdateOp sampleSeqStore sampleSeq1.id dupEmailFields ≠
      Except.error CrudError.NotFoundError ∧
    (∃ s2, seqDeleteOp sampleSeqStore sampleSeq1.id = Except.ok s2 ∧
      sampleSeq1 ∉ s2.records ∧
      ∀ q ∈ sampleSeqStore.records, q ≠ sampleSeq1 → q ∈ s2.records) ∧
    (seqListOp sampleSeqStore).Perm sampleSeqStore.records ∧
    sampleSeq1 ∈ seqListOp sampleSeqStore ∧
    (seqExportRows sampleSeqStore).Perm sampleSeqStore.records ∧
    seqGetOp sampleSeqStore 99 = Except.error CrudError.NotFoundError ∧
    seqUpdateOp sampleSeqStore 99 dupEmailFields =
      Except.error CrudError.NotFoundError ∧
    seqDeleteOp sampleSeqStore 99 = Except.error CrudError.NotFoundError :=
  C10_no_owner_scoping sampleSeqStore
    (by simp [SeqStore.wf, sampleSeqStore, sampleSeq1, sampleSeq2])
    sampleSeq1 (by simp [sampleSeqStore]) dupEmailFields 99
    (by intro q hq; fin_cases hq <;> decide)

end CrudApp
